import Mathlib

/-!
Shallow embedding of the onion-routing classroom simulator
(`coordinator_py.py` and `relay_agent_py.py`) and verification of its
specification claims.

Modelling conventions:
* Wall-clock timestamps (`time.time()`, `time.strftime`) are omitted: every
  claim explicitly excludes the timestamp fields.
* WebSocket handles and observer connections are modelled as opaque numeric
  identifiers; message transport is modelled by the data each call site sends
  or receives.
* Python `dict` / `set` state is modelled by association lists / lists.
-/

namespace RelayCircuit

/-- The three relay roles of a circuit (`roles = ["guard", "middle", "exit"]`). -/
inductive Role where
  | guard
  | middle
  | exit
  deriving DecidableEq

def roleName : Role → String
  | .guard => "guard"
  | .middle => "middle"
  | .exit => "exit"

/-- A per-hop packet as built by the coordinator (`pkt` in `send_circuit`):
`{**pkt_base, "id": f"{cid}-{i+1}", "layers": 3 - i, "prev_hop": prev_hop_ip}`.
The coordinator always sets every field, so the Python `.get` defaults in
`build_log_entry` (`prev_hop` → `"???"`, `layers` → 3, `size` → 512) are
unreachable for packets of this shape; the `ts` field is a wall-clock
timestamp and is omitted. -/
structure Packet where
  circuit_id : String
  src : String
  dst : String
  size : Nat
  id : String
  layers : Int
  prev_hop : String
  deriving DecidableEq

/-- One row of `ROLE_VISIBILITY` in `relay_agent_py.py`. -/
structure Visibility where
  sees_src : Bool
  sees_dst : Bool
  sees_prev : Bool
  sees_next : Bool
  deriving DecidableEq

/-- `ROLE_VISIBILITY` table from `relay_agent_py.py`. -/
def ROLE_VISIBILITY : Role → Visibility
  | .guard => ⟨true, false, false, true⟩
  | .middle => ⟨false, false, true, true⟩
  | .exit => ⟨false, true, true, false⟩

/-- `NEXT_HOP` table from `relay_agent_py.py`. -/
def NEXT_HOP : Role → String
  | .guard => "middle"
  | .middle => "exit"
  | .exit => "destination"

/-- The state of a relay agent that `build_log_entry` reads: its role and its
machine IP.  The connection fields (`coordinator`, `ws`, `packet_count`) are
transport bookkeeping and do not affect the log entry. -/
structure RelayAgent where
  role : Role
  my_ip : String
  deriving DecidableEq

/-- A live relay's log entry (`RelayAgent.build_log_entry`'s return value,
minus the wall-clock `ts` field).  Note it has no `synthesized` key. -/
structure AgentLog where
  relay : String
  relay_ip : String
  circuit_id : String
  from_ip : String
  to_ip : String
  from_known : Bool
  to_known : Bool
  layers_remaining : Int
  packet_size_bytes : Nat
  deriving DecidableEq

/-- `RelayAgent.build_log_entry` from `relay_agent_py.py` (lines 47-65). -/
def build_log_entry (a : RelayAgent) (pkt : Packet) : AgentLog :=
  let v := ROLE_VISIBILITY a.role
  { relay := roleName a.role
    relay_ip := a.my_ip
    circuit_id := pkt.circuit_id
    from_ip := if v.sees_src then pkt.src else (if v.sees_prev then pkt.prev_hop else "???")
    to_ip := if v.sees_dst then pkt.dst else (if v.sees_next then NEXT_HOP a.role else "???")
    from_known := v.sees_src || v.sees_prev
    to_known := v.sees_dst || v.sees_next
    layers_remaining := pkt.layers - 1
    packet_size_bytes := pkt.size }

/-- A synthesized log entry (`synthesize_log`'s return value, minus the
wall-clock `ts` field).  Note it has no `relay_ip` or `packet_size_bytes`
key, and it carries an explicit `synthesized` flag. -/
structure SynthLog where
  relay : String
  circuit_id : String
  from_ip : String
  to_ip : String
  from_known : Bool
  to_known : Bool
  layers_remaining : Int
  synthesized : Bool
  deriving DecidableEq

/-- `synthesize_log` from `coordinator_py.py` (lines 94-104): the coordinator's
fallback when no live agent is registered for a role. -/
def synthesize_log (role : Role) (pkt : Packet) : SynthLog :=
  let vis : String × String × Bool × Bool :=
    match role with
    | .guard => (pkt.src, "middle-relay", true, true)
    | .middle => ("guard-node", "exit-node", true, true)
    | .exit => ("middle-relay", pkt.dst, true, true)
  { relay := roleName role
    circuit_id := pkt.circuit_id
    from_ip := vis.1
    to_ip := vis.2.1
    from_known := vis.2.2.1
    to_known := vis.2.2.2
    layers_remaining := pkt.layers - 1
    synthesized := true }

/-- The guard-hop example packet from the spec: `{src:"10.3.0.5",
dst:"93.184.10.2", layers:3}`; `prev_hop` is the circuit source, as the
orchestrator sets it before the first hop. -/
def examplePacketGuard : Packet :=
  { circuit_id := "C001", src := "10.3.0.5", dst := "93.184.10.2",
    size := 512, id := "C001-1", layers := 3, prev_hop := "10.3.0.5" }

/-- The exit-hop example packet from the spec: same circuit with `layers:1`
and `previous_hop:"10.0.2.2"`. -/
def examplePacketExit : Packet :=
  { circuit_id := "C001", src := "10.3.0.5", dst := "93.184.10.2",
    size := 512, id := "C001-3", layers := 1, prev_hop := "10.0.2.2" }

/-! ## Circuit Orchestrator (`send_circuit`, `coordinator_py.py` lines 48-92) -/

/-- The shared packet fields built once per circuit (`pkt_base`, minus the
wall-clock `ts` field). -/
structure PktBase where
  circuit_id : String
  src : String
  dst : String
  size : Nat
  deriving DecidableEq

/-- The per-hop packet:
`{**pkt_base, "id": f"{cid}-{i+1}", "layers": 3 - i, "prev_hop": prev_hop_ip}`. -/
def mkHopPacket (pb : PktBase) (i : Nat) (prev : String) : Packet :=
  { circuit_id := pb.circuit_id, src := pb.src, dst := pb.dst, size := pb.size,
    id := pb.circuit_id ++ "-" ++ toString (i + 1),
    layers := 3 - (i : Int), prev_hop := prev }

/-- The fixed simulated relay addresses used to advance `prev_hop_ip`
(`{"guard": "10.0.1.2", "middle": "10.0.2.2", "exit": "10.0.3.2"}.get(role, "?")`;
the `"?"` default is unreachable since `role` ranges over the three roles). -/
def SIM_RELAY_IP : Role → String
  | .guard => "10.0.1.2"
  | .middle => "10.0.2.2"
  | .exit => "10.0.3.2"

/-- One timing-correlation sample, `{"t": time.time(), "cid": cid}`; the
wall-clock `t` field is omitted. -/
structure TimingSample where
  cid : String
  deriving DecidableEq

/-- The coordinator's timing state: `timing_log = {"guard": [], "exit": []}`. -/
structure CoordState where
  timing_log_guard : List TimingSample
  timing_log_exit : List TimingSample
  deriving DecidableEq

/-- `if role in ("guard", "exit"): timing_log[role].append({"t": ..., "cid": cid})` -/
def recordTiming (st : CoordState) (role : Role) (cid : String) : CoordState :=
  match role with
  | .guard => { st with timing_log_guard := st.timing_log_guard ++ [⟨cid⟩] }
  | .exit => { st with timing_log_exit := st.timing_log_exit ++ [⟨cid⟩] }
  | .middle => st

/-- What `await asyncio.wait_for(agents[role].recv(), timeout=3.0)` followed by
`json.loads` yields for one hop:
* `msg t entry` — the frame parsed to a JSON object whose `type` field is `t`
  and whose `data` field is the entry (whatever the remote agent sent);
* `unparseable` — `json.loads(raw)` raises `json.JSONDecodeError`;
* `timeout` — `asyncio.wait_for` raises `asyncio.TimeoutError`. -/
inductive RecvOutcome where
  | msg (t : String) (entry : AgentLog)
  | unparseable
  | timeout
  deriving DecidableEq

/-- Whether a live agent is registered for a role (`agents.get(role)`), and if
so how it responds to the dispatched packet. -/
inductive HopBehavior where
  | live (outcome : RecvOutcome)
  | absent
  deriving DecidableEq

/-- The only uncaught exception `send_circuit` can raise: `json.loads` of a
malformed agent frame (`except asyncio.TimeoutError` does not catch it). -/
inductive CircuitError where
  | jsonDecodeError
  deriving DecidableEq

/-- The payload of a `relay_log` broadcast: either a live agent's entry
(forwarded verbatim, no `synthesized` key) or a synthesized entry. -/
inductive LogData where
  | live (entry : AgentLog)
  | synth (entry : SynthLog)
  deriving DecidableEq

/-- The `synthesized` flag an observer reads off a `relay_log` payload; a
live entry has no such key (falsy), a synthesized entry carries its flag. -/
def logSynthFlag : LogData → Bool
  | .live _ => false
  | .synth entry => entry.synthesized

/-- Events broadcast to observers by `send_circuit` (`broadcast_to_browsers`
call sites), in the order they are sent. -/
inductive Event where
  | circuit_start (id src dst : String)
  | relay_log (data : LogData)
  | circuit_done (id : String)
  deriving DecidableEq

def isRelayLog : Event → Bool
  | .relay_log _ => true
  | _ => false

def isCircuitStart : Event → Bool
  | .circuit_start _ _ _ => true
  | _ => false

def isCircuitDone : Event → Bool
  | .circuit_done _ => true
  | _ => false

/-- The body of the `for i, role in enumerate(roles)` loop for one hop
(`coordinator_py.py` lines 63-88): returns the events broadcast for this hop,
the updated timing state, and the uncaught exception if one escapes.
* live agent, well-formed `log` response: record a timing sample for terminal
  roles, forward the entry;
* live agent, other message type: the `if log_msg.get("type") == "log"` guard
  fails — nothing happens;
* live agent, unparseable frame: `json.loads` raises and nothing catches it;
* live agent, timeout: caught, warning printed, no entry;
* no agent: synthesize the entry, record a timing sample for terminal roles,
  forward it (the `asyncio.sleep` latency emulation has no observable state). -/
def processHop (st : CoordState) (pkt : Packet) (role : Role) (b : HopBehavior) :
    List Event × CoordState × Option CircuitError :=
  match b with
  | .live outcome =>
    match outcome with
    | .msg t entry =>
      if t = "log" then
        ([Event.relay_log (LogData.live entry)], recordTiming st role pkt.circuit_id, none)
      else
        ([], st, none)
    | .unparseable => ([], st, some CircuitError.jsonDecodeError)
    | .timeout => ([], st, none)
  | .absent =>
    ([Event.relay_log (LogData.synth (synthesize_log role pkt))],
     recordTiming st role pkt.circuit_id, none)

/-- The hop loop of `send_circuit`: processes the remaining roles in order,
threading the timing state and `prev_hop_ip`, accumulating broadcast events;
an uncaught exception aborts the loop (and the rest of `send_circuit`). -/
def runHopsAux (behaviors : Role → HopBehavior) (pb : PktBase) :
    CoordState → String → Nat → List Role → List Event × CoordState × Option CircuitError
  | st, _, _, [] => ([], st, none)
  | st, prev, i, role :: rest =>
    let r := processHop st (mkHopPacket pb i prev) role (behaviors role)
    match r.2.2 with
    | some e => (r.1, r.2.1, some e)
    | none =>
      let rr := runHopsAux behaviors pb r.2.1 (SIM_RELAY_IP role) (i + 1) rest
      (r.1 ++ rr.1, rr.2.1, rr.2.2)

/-- `roles = ["guard", "middle", "exit"]` -/
def circuitRoles : List Role := [Role.guard, Role.middle, Role.exit]

/-- `send_circuit` (`coordinator_py.py` lines 48-92): broadcast
`circuit_start`, run the three hops in order starting from `prev_hop_ip = src`,
then broadcast `circuit_done` — unless an uncaught exception escaped the hop
loop, in which case the function aborts with the events already sent. -/
def send_circuit (st : CoordState) (pb : PktBase) (behaviors : Role → HopBehavior) :
    List Event × CoordState × Option CircuitError :=
  let startEv := Event.circuit_start pb.circuit_id pb.src pb.dst
  let r := runHopsAux behaviors pb st pb.src 0 circuitRoles
  match r.2.2 with
  | some e => (startEv :: r.1, r.2.1, some e)
  | none => (startEv :: (r.1 ++ [Event.circuit_done pb.circuit_id]), r.2.1, none)

/-! ## Event Fan-out (`broadcast_to_browsers`, `coordinator_py.py` lines 38-45) -/

/-- An observer (browser WebSocket) handle. -/
abbrev Obs := Nat

/-- The `for ws in browsers: try: await ws.send(...) except Exception: dead.add(ws)`
loop: whether a given observer's `send` raises is modelled by `sendFails`.
Returns (observers that received the message, the `dead` set), each in
iteration order.  Every exception is caught, so the loop is total. -/
def broadcastLoop (sendFails : Obs → Bool) : List Obs → List Obs × List Obs
  | [] => ([], [])
  | ws :: rest =>
    let r := broadcastLoop sendFails rest
    if sendFails ws then (r.1, ws :: r.2) else (ws :: r.1, r.2)

/-- `broadcast_to_browsers`: run the send loop, then
`browsers.difference_update(dead)`.  Returns (delivered, remaining browsers). -/
def broadcast_to_browsers (browsers : List Obs) (sendFails : Obs → Bool) :
    List Obs × List Obs :=
  let r := broadcastLoop sendFails browsers
  (r.1, browsers.filter (fun ws => !(r.2.contains ws)))

/-! ## Endpoint registration (`handler`, `coordinator_py.py` lines 129-149) -/

/-- A relay-agent WebSocket handle. -/
abbrev Ws := Nat

/-- The `agents` dict (`role -> websocket`), as an association list with
Python-dict update semantics. -/
abbrev AgentsMap := List (String × Ws)

/-- `agents.get(role)` -/
def dictGet (m : AgentsMap) (k : String) : Option Ws :=
  (m.find? (fun p => p.1 == k)).map (·.2)

/-- `agents[role] = ws` — Python dict assignment: replace the value at the
key if present (keeping its position), else insert the new binding. -/
def dictSet (m : AgentsMap) (k : String) (v : Ws) : AgentsMap :=
  match m with
  | [] => [(k, v)]
  | p :: rest => if p.1 == k then (k, v) :: rest else p :: dictSet rest k v

/-- `del agents[role]` -/
def dictDel (m : AgentsMap) (k : String) : AgentsMap :=
  m.filter (fun p => !(p.1 == k))

/-- The registration-map mutations performed by `handler`:
* `register role ws` — a connection's first message is
  `{"type": "register", "role": role}`: `agents[role] = ws`;
* `disconnect role ws` — that connection closes: the `finally` block runs
  `if agents.get(role) == ws: del agents[role]`. -/
inductive AgentEvent where
  | register (role : String) (ws : Ws)
  | disconnect (role : String) (ws : Ws)
  deriving DecidableEq

def applyAgentEvent (m : AgentsMap) : AgentEvent → AgentsMap
  | .register role ws => dictSet m role ws
  | .disconnect role ws => if dictGet m role = some ws then dictDel m role else m

/-- The registration map reached from the initial `agents = {}` after a
sequence of registration/disconnection events. -/
def runAgentEvents (evs : List AgentEvent) : AgentsMap :=
  evs.foldl applyAgentEvent []

/-! ## Scheduler (`auto_scheduler`, `coordinator_py.py` lines 166-175) -/

/-- The observable actions of one scheduler tick:
* `originate` — `await send_circuit()` (awaited: the tick blocks on it);
* `spawnCorrelation` — `asyncio.create_task(run_ai_correlation(ai_key))`
  (spawned as an independent task, not awaited, so it does not block the
  next origination). -/
inductive SchedAction where
  | originate
  | spawnCorrelation
  deriving DecidableEq

/-- One iteration of the `while True` loop, after the `await asyncio.sleep`:
`if browsers: await send_circuit(); count += 1; if count % 5 == 0:
asyncio.create_task(run_ai_correlation(ai_key))`.  Input: whether the
observer set is non-empty at this tick.  Returns the new `count` and the
actions taken. -/
def schedulerTick (count : Nat) (hasBrowsers : Bool) : Nat × List SchedAction :=
  if hasBrowsers then
    let c := count + 1
    if c % 5 = 0 then (c, [SchedAction.originate, SchedAction.spawnCorrelation])
    else (c, [SchedAction.originate])
  else (count, [])

/-- The action trace of the scheduler over a sequence of ticks, given the
observer-set emptiness at each tick; `count` starts at 0. -/
def runScheduler (count : Nat) : List Bool → List SchedAction
  | [] => []
  | b :: rest =>
    let r := schedulerTick count b
    r.2 ++ runScheduler r.1 rest

/-! ## Correlation sampling (`run_ai_correlation`, `coordinator_py.py`
lines 107-126) -/

/-- The `ctx` handed to the external correlation collaborator. -/
structure CorrelationContext where
  guard_events : List TimingSample
  exit_events : List TimingSample
  circuit_count : Nat
  deriving DecidableEq

/-- Python's `l[-10:]`: the most recent 10 elements. -/
def lastTen (l : List TimingSample) : List TimingSample :=
  l.drop (l.length - 10)

/-- `ctx = {"guard_events": timing_log["guard"][-10:],
"exit_events": timing_log["exit"][-10:], "circuit_count": circuit_counter}` -/
def correlationContext (st : CoordState) (count : Nat) : CorrelationContext :=
  { guard_events := lastTen st.timing_log_guard,
    exit_events := lastTen st.timing_log_exit,
    circuit_count := count }

/-! ## Concrete runs used by the claims -/

/-- `timing_log = {"guard": [], "exit": []}` -/
def initState : CoordState := ⟨[], []⟩

/-- An empty registration map: `agents.get(role)` is `None` for every role. -/
def allAbsent : Role → HopBehavior := fun _ => HopBehavior.absent

/-- The packet base of the `n`-th circuit of a run (concrete source and
destination; the coordinator draws random ones, which no claim depends on). -/
def pbFor (n : Nat) : PktBase :=
  { circuit_id := "C" ++ toString n, src := "10.0.0.2", dst := "93.184.1.1", size := 512 }

/-- The coordinator timing state after `n` circuits with no registered
agents, starting from the initial empty state. -/
def runNCircuits : Nat → CoordState
  | 0 => initState
  | n + 1 => (send_circuit (runNCircuits n) (pbFor (n + 1)) allAbsent).2.1

/-- The packet each hop of a circuit receives: `prev_hop_ip` is the circuit
source before the first hop and the previous role's fixed simulated address
thereafter; `layers` is `3 - i`. -/
def hopPacket (pb : PktBase) : Role → Packet
  | .guard => mkHopPacket pb 0 pb.src
  | .middle => mkHopPacket pb 1 (SIM_RELAY_IP Role.guard)
  | .exit => mkHopPacket pb 2 (SIM_RELAY_IP Role.middle)

/-- The `relay_log` events a hop broadcasts (its events do not depend on the
timing state, so it is evaluated at the initial state). -/
def hopEmitted (pb : PktBase) (behaviors : Role → HopBehavior) (role : Role) : List Event :=
  (processHop initState (hopPacket pb role) role (behaviors role)).1

/-- The events of the hop loop over a role list, as a pure chain (used to
state the decomposition of `runHopsAux` when no exception escapes). -/
def emitChain (pb : PktBase) (behaviors : Role → HopBehavior) :
    String → Nat → List Role → List Event
  | _, _, [] => []
  | prev, i, role :: rest =>
    (processHop initState (mkHopPacket pb i prev) role (behaviors role)).1
      ++ emitChain pb behaviors (SIM_RELAY_IP role) (i + 1) rest

/-- How many registrations a role holds in the agents map. -/
def roleCount (m : AgentsMap) (role : String) : Nat :=
  (m.filter (fun p => p.1 == role)).length

/-- A run where a live guard agent responds with a frame that `json.loads`
cannot parse, and no other agent is registered. -/
def unparseableGuardRun : Role → HopBehavior
  | .guard => HopBehavior.live RecvOutcome.unparseable
  | _ => HopBehavior.absent

/-- A run where a live guard agent never responds within the timeout, and no
other agent is registered. -/
def timeoutGuardRun : Role → HopBehavior
  | .guard => HopBehavior.live RecvOutcome.timeout
  | _ => HopBehavior.absent

/-! ## Helper lemmas -/

theorem processHop_err_none (st : CoordState) (pkt : Packet) (role : Role) (b : HopBehavior)
    (h : b ≠ HopBehavior.live RecvOutcome.unparseable) :
    (processHop st pkt role b).2.2 = none := by
  cases b with
  | live o =>
    cases o with
    | msg t entry => by_cases ht : t = "log" <;> simp [processHop, ht]
    | unparseable => exact absurd rfl h
    | timeout => rfl
  | absent => rfl

theorem processHop_events_st_irrel (st st' : CoordState) (pkt : Packet) (role : Role)
    (b : HopBehavior) : (processHop st pkt role b).1 = (processHop st' pkt role b).1 := by
  cases b with
  | live o =>
    cases o with
    | msg t entry => by_cases ht : t = "log" <;> simp [processHop, ht]
    | unparseable => rfl
    | timeout => rfl
  | absent => rfl

theorem runHopsAux_no_error (pb : PktBase) (behaviors : Role → HopBehavior)
    (h : ∀ r, behaviors r ≠ HopBehavior.live RecvOutcome.unparseable) :
    ∀ (roles : List Role) (st : CoordState) (prev : String) (i : Nat),
      (runHopsAux behaviors pb st prev i roles).1 = emitChain pb behaviors prev i roles
      ∧ (runHopsAux behaviors pb st prev i roles).2.2 = none := by
  intro roles
  induction roles with
  | nil => intro st prev i; exact ⟨rfl, rfl⟩
  | cons role rest ih =>
    intro st prev i
    have he := processHop_err_none st (mkHopPacket pb i prev) role (behaviors role) (h role)
    have hev := processHop_events_st_irrel st initState (mkHopPacket pb i prev) role
      (behaviors role)
    simp only [runHopsAux, emitChain, he, hev]
    simpa using ih (processHop st (mkHopPacket pb i prev) role (behaviors role)).2.1
      (SIM_RELAY_IP role) (i + 1)

theorem emitChain_circuitRoles (pb : PktBase) (behaviors : Role → HopBehavior) :
    emitChain pb behaviors pb.src 0 circuitRoles
      = hopEmitted pb behaviors Role.guard ++ hopEmitted pb behaviors Role.middle
          ++ hopEmitted pb behaviors Role.exit := by
  simp [circuitRoles, emitChain, hopEmitted, hopPacket, List.append_assoc]

theorem send_circuit_no_error (st : CoordState) (pb : PktBase)
    (behaviors : Role → HopBehavior)
    (h : ∀ r, behaviors r ≠ HopBehavior.live RecvOutcome.unparseable) :
    (send_circuit st pb behaviors).1
      = Event.circuit_start pb.circuit_id pb.src pb.dst
          :: (hopEmitted pb behaviors Role.guard ++ hopEmitted pb behaviors Role.middle
              ++ hopEmitted pb behaviors Role.exit ++ [Event.circuit_done pb.circuit_id])
    ∧ (send_circuit st pb behaviors).2.2 = none := by
  have hr := runHopsAux_no_error pb behaviors h circuitRoles st pb.src 0
  simp only [send_circuit, hr.1, hr.2, emitChain_circuitRoles]
  exact ⟨by simp [List.append_assoc], by simp⟩

theorem hopEmitted_shape (pb : PktBase) (behaviors : Role → HopBehavior) (role : Role) :
    (hopEmitted pb behaviors role).length ≤ 1
    ∧ ∀ ev ∈ hopEmitted pb behaviors role, isRelayLog ev = true := by
  unfold hopEmitted
  cases behaviors role with
  | live o =>
    cases o with
    | msg t entry =>
      by_cases ht : t = "log" <;> simp [processHop, ht, isRelayLog]
    | unparseable => simp [processHop]
    | timeout => simp [processHop]
  | absent => simp [processHop, isRelayLog]

theorem relayLog_not_start (ev : Event) (h : isRelayLog ev = true) :
    isCircuitStart ev = false := by
  cases ev <;> simp_all [isRelayLog, isCircuitStart]

theorem relayLog_not_done (ev : Event) (h : isRelayLog ev = true) :
    isCircuitDone ev = false := by
  cases ev <;> simp_all [isRelayLog, isCircuitDone]

theorem dictGet_cons (p : String × Ws) (l : AgentsMap) (k : String) :
    dictGet (p :: l) k = if p.1 == k then some p.2 else dictGet l k := by
  by_cases h : (p.1 == k) <;>
    simp only [Bool.not_eq_true] at * <;> simp [dictGet, List.find?, h]

theorem roleCount_cons (p : String × Ws) (l : AgentsMap) (role : String) :
    roleCount (p :: l) role = (if p.1 == role then 1 else 0) + roleCount l role := by
  by_cases h : (p.1 == role)
  · simp only [roleCount, List.filter, h, if_true, List.length_cons]
    omega
  · simp only [Bool.not_eq_true] at h
    simp [roleCount, List.filter, h]

theorem dictGet_dictSet (m : AgentsMap) (k : String) (v : Ws) :
    dictGet (dictSet m k v) k = some v := by
  induction m with
  | nil => simp [dictGet, dictSet, List.find?]
  | cons p rest ih =>
    by_cases h : (p.1 == k)
    · simp [dictSet, h, dictGet_cons]
    · simp only [Bool.not_eq_true] at h
      simp [dictSet, h, dictGet_cons, ih]

theorem roleCount_dictSet_ne (m : AgentsMap) (k : String) (v : Ws) (role : String)
    (h : role ≠ k) : roleCount (dictSet m k v) role = roleCount m role := by
  have hkr : (k == role) = false := beq_eq_false_iff_ne.mpr (Ne.symm h)
  induction m with
  | nil => simp [roleCount, dictSet, roleCount_cons, hkr]
  | cons p rest ih =>
    by_cases hp : (p.1 == k)
    · have hpr : (p.1 == role) = false := by
        rw [beq_iff_eq] at hp
        exact beq_eq_false_iff_ne.mpr (hp ▸ Ne.symm h)
      simp [dictSet, hp, roleCount_cons, hkr, hpr]
    · simp only [Bool.not_eq_true] at hp
      simp [dictSet, hp, roleCount_cons, ih]

theorem roleCount_dictSet_self (m : AgentsMap) (k : String) (v : Ws)
    (h : roleCount m k ≤ 1) : roleCount (dictSet m k v) k ≤ 1 := by
  induction m with
  | nil => simp [roleCount, dictSet, List.filter]
  | cons p rest ih =>
    by_cases hp : (p.1 == k)
    · rw [roleCount_cons, hp] at h
      simp only [if_true] at h
      simp only [dictSet, hp, if_true]
      rw [roleCount_cons]
      simp only [beq_self_eq_true, if_true]
      omega
    · simp only [Bool.not_eq_true] at hp
      rw [roleCount_cons, hp] at h
      simp only [dictSet, hp, if_false, Bool.false_eq_true]
      rw [roleCount_cons, hp]
      simp only [if_false, Bool.false_eq_true]
      have := ih (by omega)
      omega

theorem roleCount_dictDel_le (m : AgentsMap) (k role : String) :
    roleCount (dictDel m k) role ≤ roleCount m role := by
  have hs : List.Sublist (dictDel m k) m := List.filter_sublist m
  exact List.Sublist.length_le (List.Sublist.filter _ hs)

theorem roleCount_applyAgentEvent (m : AgentsMap) (e : AgentEvent)
    (h : ∀ r, roleCount m r ≤ 1) : ∀ r, roleCount (applyAgentEvent m e) r ≤ 1 := by
  intro r
  cases e with
  | register role ws =>
    by_cases hr : r = role
    · subst hr
      exact roleCount_dictSet_self m r ws (h r)
    · rw [applyAgentEvent, roleCount_dictSet_ne m role ws r hr]
      exact h r
  | disconnect role ws =>
    simp only [applyAgentEvent]
    split
    · exact le_trans (roleCount_dictDel_le m role r) (h r)
    · exact h r

theorem roleCount_foldl (evs : List AgentEvent) :
    ∀ m, (∀ r, roleCount m r ≤ 1) →
      ∀ r, roleCount (evs.foldl applyAgentEvent m) r ≤ 1 := by
  induction evs with
  | nil => intro m h r; exact h r
  | cons e rest ih =>
    intro m h r
    exact ih (applyAgentEvent m e) (roleCount_applyAgentEvent m e h) r

theorem broadcastLoop_fst (sendFails : Obs → Bool) (l : List Obs) :
    (broadcastLoop sendFails l).1 = l.filter (fun ws => !(sendFails ws)) := by
  induction l with
  | nil => rfl
  | cons ws rest ih =>
    by_cases h : sendFails ws <;> simp [broadcastLoop, h, ih, List.filter]

theorem broadcastLoop_snd (sendFails : Obs → Bool) (l : List Obs) :
    (broadcastLoop sendFails l).2 = l.filter (fun ws => sendFails ws) := by
  induction l with
  | nil => rfl
  | cons ws rest ih =>
    by_cases h : sendFails ws <;> simp [broadcastLoop, h, ih, List.filter]

theorem schedulerTick_count_true (count : Nat) :
    (schedulerTick count true).1 = count + 1 := by
  by_cases h : (count + 1) % 5 = 0 <;> simp [schedulerTick, h]

theorem runScheduler_count_originate (count : Nat) (ticks : List Bool) :
    (runScheduler count ticks).count SchedAction.originate = ticks.count true := by
  induction ticks generalizing count with
  | nil => rfl
  | cons b rest ih =>
    cases b with
    | false => simp [runScheduler, schedulerTick, ih, List.count_cons]
    | true =>
      by_cases h : (count + 1) % 5 = 0 <;>
        simp [runScheduler, schedulerTick, h, ih, List.count_cons, List.count_append]

theorem runScheduler_count_spawn (count : Nat) (ticks : List Bool) :
    (runScheduler count ticks).count SchedAction.spawnCorrelation + count / 5
      = (count + ticks.count true) / 5 := by
  induction ticks generalizing count with
  | nil => simp [runScheduler]
  | cons b rest ih =>
    cases b with
    | false =>
      simpa [runScheduler, schedulerTick, List.count_cons] using ih count
    | true =>
      have hrec := ih (count + 1)
      by_cases h : (count + 1) % 5 = 0 <;>
        [simp [runScheduler, schedulerTick, h, List.count_append, List.count_cons] at hrec ⊢;
         simp [runScheduler, schedulerTick, h, List.count_append, List.count_cons] at hrec ⊢] <;>
        omega

theorem send_circuit_absent_growth (st : CoordState) (pb : PktBase) :
    (send_circuit st pb allAbsent).2.1.timing_log_guard
        = st.timing_log_guard ++ [⟨pb.circuit_id⟩]
    ∧ (send_circuit st pb allAbsent).2.1.timing_log_exit
        = st.timing_log_exit ++ [⟨pb.circuit_id⟩] := by
  constructor <;>
    simp [send_circuit, runHopsAux, processHop, recordTiming, circuitRoles, allAbsent,
      mkHopPacket]

theorem runNCircuits_lengths (n : Nat) :
    (runNCircuits n).timing_log_guard.length = n
    ∧ (runNCircuits n).timing_log_exit.length = n := by
  induction n with
  | zero => simp [runNCircuits, initState]
  | succ n ih =>
    have h := send_circuit_absent_growth (runNCircuits n) (pbFor (n + 1))
    simp [runNCircuits, h.1, h.2, ih.1, ih.2]

/-! ## Claims -/

/-- C1 (amended): for every role and packet, `synthesize_log` and
`build_log_entry` agree on `from_known`, `to_known` and `layers_remaining`,
and for the guard role also on `from_ip`; but the two paths differ on `to_ip`
for guard and middle (the synthesis path uses the fixed labels
`"middle-relay"` / `"exit-node"` where a live relay reports `"middle"` /
`"exit"`), and on `from_ip` for middle and exit (fixed labels `"guard-node"`
/ `"middle-relay"` versus the packet's `prev_hop`). -/
theorem synth_live_field_agreement (role : Role) (ip : String) (pkt : Packet) :
    (synthesize_log role pkt).from_known = (build_log_entry ⟨role, ip⟩ pkt).from_known
    ∧ (synthesize_log role pkt).to_known = (build_log_entry ⟨role, ip⟩ pkt).to_known
    ∧ (synthesize_log role pkt).layers_remaining
        = (build_log_entry ⟨role, ip⟩ pkt).layers_remaining
    ∧ (synthesize_log Role.guard pkt).from_ip = (build_log_entry ⟨Role.guard, ip⟩ pkt).from_ip
    ∧ (synthesize_log Role.guard pkt).to_ip = "middle-relay"
    ∧ (build_log_entry ⟨Role.guard, ip⟩ pkt).to_ip = "middle"
    ∧ (synthesize_log Role.middle pkt).from_ip = "guard-node"
    ∧ (build_log_entry ⟨Role.middle, ip⟩ pkt).from_ip = pkt.prev_hop
    ∧ (synthesize_log Role.middle pkt).to_ip = "exit-node"
    ∧ (build_log_entry ⟨Role.middle, ip⟩ pkt).to_ip = "exit"
    ∧ (synthesize_log Role.exit pkt).from_ip = "middle-relay"
    ∧ (build_log_entry ⟨Role.exit, ip⟩ pkt).from_ip = pkt.prev_hop := by
  cases role <;>
    simp [synthesize_log, build_log_entry, ROLE_VISIBILITY, NEXT_HOP]

/-- C1 counterexample: on the guard role the synthesis path and the live path
produce different `to_ip` fields for the very same packet, so the two paths do
not agree on all of `from_ip`, `to_ip`, `from_known`, `to_known`,
`layers_remaining`. -/
theorem synth_live_guard_to_ip_mismatch :
    (synthesize_log Role.guard examplePacketGuard).to_ip = "middle-relay"
    ∧ (build_log_entry ⟨Role.guard, "10.0.1.2"⟩ examplePacketGuard).to_ip = "middle"
    ∧ (synthesize_log Role.guard examplePacketGuard).to_ip
        ≠ (build_log_entry ⟨Role.guard, "10.0.1.2"⟩ examplePacketGuard).to_ip := by
  decide

/-- C2 (amended): each terminal-role hop that records a timing sample appends
one entry and the lists are never trimmed — after `n` circuits with no
registered agents each terminal role's timing list holds exactly `n` entries,
growing without bound; only the correlation analysis reads a bounded view
(the most recent 10 entries, `timing_log[role][-10:]`). -/
theorem timing_log_unbounded :
    (∀ n : Nat, (runNCircuits n).timing_log_guard.length = n
        ∧ (runNCircuits n).timing_log_exit.length = n)
    ∧ (∀ (st : CoordState) (count : Nat),
        (correlationContext st count).guard_events.length ≤ 10
        ∧ (correlationContext st count).exit_events.length ≤ 10) := by
  refine ⟨runNCircuits_lengths, fun st count => ?_⟩
  constructor <;> simp [correlationContext, lastTen] <;> omega

/-- C2 counterexample: after 11 circuits the guard timing-sample list holds 11
entries — more than the claimed bound of 10. -/
theorem timing_log_exceeds_ten :
    (runNCircuits 11).timing_log_guard.length = 11
    ∧ ¬((runNCircuits 11).timing_log_guard.length ≤ 10) := by
  have h := runNCircuits_lengths 11
  exact ⟨h.1, by rw [h.1]; omega⟩

/-- C3 (code bug): a live guard agent whose response `json.loads` cannot parse
is NOT handled like a timeout: the `except asyncio.TimeoutError` clause does
not catch `json.JSONDecodeError`, so the exception escapes `send_circuit` —
the remaining hops are not processed and `circuit_done` is never broadcast —
whereas the same circuit with a guard timeout completes normally. -/
theorem unparseable_response_aborts_circuit :
    (send_circuit initState (pbFor 1) unparseableGuardRun).1
      = [Event.circuit_start "C1" "10.0.0.2" "93.184.1.1"]
    ∧ (send_circuit initState (pbFor 1) unparseableGuardRun).2.2
        = some CircuitError.jsonDecodeError
    ∧ Event.circuit_done "C1" ∉ (send_circuit initState (pbFor 1) unparseableGuardRun).1
    ∧ (send_circuit initState (pbFor 1) timeoutGuardRun).2.2 = none
    ∧ Event.circuit_done "C1" ∈ (send_circuit initState (pbFor 1) timeoutGuardRun).1 := by
  decide

/-- C4: for every completed run of `send_circuit` (no hop response failed to
parse, so no exception escaped), the broadcast trace is exactly one
`circuit_start`, then the per-hop `relay_log` events in guard–middle–exit
order (at most one per hop), then exactly one `circuit_done` — regardless of
which hops were live, synthesized, or skipped by timeout. -/
theorem circuit_event_order (st : CoordState) (pb : PktBase)
    (behaviors : Role → HopBehavior)
    (h : ∀ r, behaviors r ≠ HopBehavior.live RecvOutcome.unparseable) :
    (send_circuit st pb behaviors).1
      = Event.circuit_start pb.circuit_id pb.src pb.dst
          :: (hopEmitted pb behaviors Role.guard ++ hopEmitted pb behaviors Role.middle
              ++ hopEmitted pb behaviors Role.exit ++ [Event.circuit_done pb.circuit_id])
    ∧ ((send_circuit st pb behaviors).1.filter isCircuitStart).length = 1
    ∧ ((send_circuit st pb behaviors).1.filter isCircuitDone).length = 1
    ∧ (send_circuit st pb behaviors).1.head?
        = some (Event.circuit_start pb.circuit_id pb.src pb.dst)
    ∧ (send_circuit st pb behaviors).1.getLast? = some (Event.circuit_done pb.circuit_id)
    ∧ (∀ role, (hopEmitted pb behaviors role).length ≤ 1
        ∧ ∀ ev ∈ hopEmitted pb behaviors role, isRelayLog ev = true) := by
  have htr := (send_circuit_no_error st pb behaviors h).1
  have hfilt : ∀ role, (hopEmitted pb behaviors role).filter isCircuitStart = []
      ∧ (hopEmitted pb behaviors role).filter isCircuitDone = [] := by
    intro role
    have hs := (hopEmitted_shape pb behaviors role).2
    constructor <;> rw [List.filter_eq_nil_iff] <;> intro ev hev
    · simp [relayLog_not_start ev (hs ev hev)]
    · simp [relayLog_not_done ev (hs ev hev)]
  refine ⟨htr, ?_, ?_, ?_, ?_, hopEmitted_shape pb behaviors⟩
  · rw [htr]
    simp [List.filter_append, (hfilt Role.guard).1, (hfilt Role.middle).1,
      (hfilt Role.exit).1, isCircuitStart, isCircuitDone]
  · rw [htr]
    simp [List.filter_append, (hfilt Role.guard).2, (hfilt Role.middle).2,
      (hfilt Role.exit).2, isCircuitStart, isCircuitDone]
  · rw [htr]; rfl
  · rw [htr]
    rw [show Event.circuit_start pb.circuit_id pb.src pb.dst
          :: (hopEmitted pb behaviors Role.guard ++ hopEmitted pb behaviors Role.middle
              ++ hopEmitted pb behaviors Role.exit ++ [Event.circuit_done pb.circuit_id])
        = (Event.circuit_start pb.circuit_id pb.src pb.dst
            :: (hopEmitted pb behaviors Role.guard ++ hopEmitted pb behaviors Role.middle
                ++ hopEmitted pb behaviors Role.exit)) ++ [Event.circuit_done pb.circuit_id]
      by simp]
    exact List.getLast?_concat _

/-- C4 witness: the event-order property at a concrete completed run (the
all-synthesized circuit `C1`). -/
theorem circuit_event_order_witness :
    (send_circuit initState (pbFor 1) allAbsent).1
      = Event.circuit_start (pbFor 1).circuit_id (pbFor 1).src (pbFor 1).dst
          :: (hopEmitted (pbFor 1) allAbsent Role.guard
              ++ hopEmitted (pbFor 1) allAbsent Role.middle
              ++ hopEmitted (pbFor 1) allAbsent Role.exit
              ++ [Event.circuit_done (pbFor 1).circuit_id])
    ∧ ((send_circuit initState (pbFor 1) allAbsent).1.filter isCircuitStart).length = 1
    ∧ ((send_circuit initState (pbFor 1) allAbsent).1.filter isCircuitDone).length = 1
    ∧ (send_circuit initState (pbFor 1) allAbsent).1.head?
        = some (Event.circuit_start (pbFor 1).circuit_id (pbFor 1).src (pbFor 1).dst)
    ∧ (send_circuit initState (pbFor 1) allAbsent).1.getLast?
        = some (Event.circuit_done (pbFor 1).circuit_id)
    ∧ (∀ role, (hopEmitted (pbFor 1) allAbsent role).length ≤ 1
        ∧ ∀ ev ∈ hopEmitted (pbFor 1) allAbsent role, isRelayLog ev = true) :=
  circuit_event_order initState (pbFor 1) allAbsent
    (fun r => by cases r <;> simp [allAbsent])

/-- C5 (amended): the two spec examples hold on the live path
(`build_log_entry`); on the synthesis path (`synthesize_log`) `from_known`,
`to_known` and `layers_remaining` match and the guard's `from_ip` matches, but
the guard's `to_ip` is `"middle-relay"` (not `"middle"`) and the exit's
`from_ip` is `"middle-relay"` (not the `previous_hop` `"10.0.2.2"`). -/
theorem visibility_model_examples :
    (build_log_entry ⟨Role.guard, "10.0.1.2"⟩ examplePacketGuard).from_ip = "10.3.0.5"
    ∧ (build_log_entry ⟨Role.guard, "10.0.1.2"⟩ examplePacketGuard).to_ip = "middle"
    ∧ (build_log_entry ⟨Role.guard, "10.0.1.2"⟩ examplePacketGuard).from_known = true
    ∧ (build_log_entry ⟨Role.guard, "10.0.1.2"⟩ examplePacketGuard).to_known = true
    ∧ (build_log_entry ⟨Role.guard, "10.0.1.2"⟩ examplePacketGuard).layers_remaining = 2
    ∧ (build_log_entry ⟨Role.exit, "10.0.3.2"⟩ examplePacketExit).from_ip = "10.0.2.2"
    ∧ (build_log_entry ⟨Role.exit, "10.0.3.2"⟩ examplePacketExit).to_ip = "93.184.10.2"
    ∧ (build_log_entry ⟨Role.exit, "10.0.3.2"⟩ examplePacketExit).from_known = true
    ∧ (build_log_entry ⟨Role.exit, "10.0.3.2"⟩ examplePacketExit).to_known = true
    ∧ (build_log_entry ⟨Role.exit, "10.0.3.2"⟩ examplePacketExit).layers_remaining = 0
    ∧ (synthesize_log Role.guard examplePacketGuard).from_ip = "10.3.0.5"
    ∧ (synthesize_log Role.guard examplePacketGuard).to_ip = "middle-relay"
    ∧ (synthesize_log Role.guard examplePacketGuard).from_known = true
    ∧ (synthesize_log Role.guard examplePacketGuard).to_known = true
    ∧ (synthesize_log Role.guard examplePacketGuard).layers_remaining = 2
    ∧ (synthesize_log Role.exit examplePacketExit).from_ip = "middle-relay"
    ∧ (synthesize_log Role.exit examplePacketExit).to_ip = "93.184.10.2"
    ∧ (synthesize_log Role.exit examplePacketExit).from_known = true
    ∧ (synthesize_log Role.exit examplePacketExit).to_known = true
    ∧ (synthesize_log Role.exit examplePacketExit).layers_remaining = 0 := by
  decide

/-- C5 counterexample: on the synthesis path the exit example does not yield
`from_ip = "10.0.2.2"` — `synthesize_log` reports the fixed label
`"middle-relay"` instead. -/
theorem visibility_example_synth_exit_mismatch :
    (synthesize_log Role.exit examplePacketExit).from_ip = "middle-relay"
    ∧ (synthesize_log Role.exit examplePacketExit).from_ip ≠ "10.0.2.2" := by
  decide

/-- C6: a circuit run with an empty registration map broadcasts exactly 3
`relay_log` events, one per role in hop order, every one of them flagged
`synthesized = true`. -/
theorem no_agents_three_synthesized (st : CoordState) (pb : PktBase) :
    (send_circuit st pb allAbsent).1 =
      [Event.circuit_start pb.circuit_id pb.src pb.dst,
       Event.relay_log (LogData.synth (synthesize_log Role.guard (hopPacket pb Role.guard))),
       Event.relay_log (LogData.synth (synthesize_log Role.middle (hopPacket pb Role.middle))),
       Event.relay_log (LogData.synth (synthesize_log Role.exit (hopPacket pb Role.exit))),
       Event.circuit_done pb.circuit_id]
    ∧ ((send_circuit st pb allAbsent).1.filter isRelayLog).length = 3
    ∧ (∀ d, Event.relay_log d ∈ (send_circuit st pb allAbsent).1 → logSynthFlag d = true) := by
  have htr : (send_circuit st pb allAbsent).1 =
      [Event.circuit_start pb.circuit_id pb.src pb.dst,
       Event.relay_log (LogData.synth (synthesize_log Role.guard (hopPacket pb Role.guard))),
       Event.relay_log (LogData.synth (synthesize_log Role.middle (hopPacket pb Role.middle))),
       Event.relay_log (LogData.synth (synthesize_log Role.exit (hopPacket pb Role.exit))),
       Event.circuit_done pb.circuit_id] := by
    simp [send_circuit, runHopsAux, processHop, circuitRoles, allAbsent, hopPacket]
  refine ⟨htr, ?_, ?_⟩
  · rw [htr]; simp [isRelayLog]
  · rw [htr]
    intro d hd
    simp only [List.mem_cons, List.not_mem_nil, or_false] at hd
    rcases hd with h | h | h | h | h <;> cases h <;> simp [logSynthFlag, synthesize_log]

/-- C6 witness: the all-synthesized property at the concrete circuit `C1`. -/
theorem no_agents_three_synthesized_witness :
    (send_circuit initState (pbFor 1) allAbsent).1 =
      [Event.circuit_start (pbFor 1).circuit_id (pbFor 1).src (pbFor 1).dst,
       Event.relay_log (LogData.synth
         (synthesize_log Role.guard (hopPacket (pbFor 1) Role.guard))),
       Event.relay_log (LogData.synth
         (synthesize_log Role.middle (hopPacket (pbFor 1) Role.middle))),
       Event.relay_log (LogData.synth
         (synthesize_log Role.exit (hopPacket (pbFor 1) Role.exit))),
       Event.circuit_done (pbFor 1).circuit_id]
    ∧ ((send_circuit initState (pbFor 1) allAbsent).1.filter isRelayLog).length = 3
    ∧ (∀ d, Event.relay_log d ∈ (send_circuit initState (pbFor 1) allAbsent).1
        → logSynthFlag d = true) :=
  no_agents_three_synthesized initState (pbFor 1)

/-- C7: the endpoint registration map holds at most one connection per role
after any sequence of registration and disconnection events, and registering
a role that is already occupied replaces the previous handle
(last-registration-wins) rather than failing. -/
theorem agents_single_per_role :
    (∀ (evs : List AgentEvent) (role : String),
        roleCount (runAgentEvents evs) role ≤ 1)
    ∧ (∀ (m : AgentsMap) (role : String) (ws : Ws),
        dictGet (applyAgentEvent m (AgentEvent.register role ws)) role = some ws) := by
  constructor
  · intro evs role
    exact roleCount_foldl evs [] (fun r => by simp [roleCount]) role
  · intro m role ws
    exact dictGet_dictSet m role ws

/-- C8: broadcasting to the observer set never raises (every `send` exception
is caught), delivers the event to exactly the non-failing observers, and
removes exactly the failing observers from the set. -/
theorem broadcast_best_effort (browsers : List Obs) (sendFails : Obs → Bool) :
    (broadcast_to_browsers browsers sendFails).1
      = browsers.filter (fun ws => !(sendFails ws))
    ∧ (∀ o, o ∈ (broadcast_to_browsers browsers sendFails).1
        ↔ o ∈ browsers ∧ sendFails o = false)
    ∧ (∀ o, o ∈ (broadcast_to_browsers browsers sendFails).2
        ↔ o ∈ browsers ∧ sendFails o = false) := by
  have h1 := broadcastLoop_fst sendFails browsers
  have h2 := broadcastLoop_snd sendFails browsers
  refine ⟨h1, fun o => ?_, fun o => ?_⟩
  · rw [show (broadcast_to_browsers browsers sendFails).1
        = browsers.filter (fun ws => !(sendFails ws)) from h1]
    simp [List.mem_filter]
  · show o ∈ browsers.filter
        (fun ws => !((broadcastLoop sendFails browsers).2.contains ws))
      ↔ o ∈ browsers ∧ sendFails o = false
    rw [h2]
    simp only [List.mem_filter, Bool.not_eq_true', List.contains, List.elem_eq_mem,
      decide_eq_false_iff_not, List.mem_filter, not_and]
    constructor
    · rintro ⟨hin, hnot⟩
      refine ⟨hin, ?_⟩
      by_contra hf
      rw [Bool.not_eq_false] at hf
      exact hnot hin hf
    · rintro ⟨hin, hf⟩
      exact ⟨hin, fun _ hc => by simp [hf] at hc⟩

/-- C9: on every scheduler tick a circuit is originated iff at least one
observer is connected, and over any run starting from `count = 0` the number
of correlation-analysis tasks spawned is the number of originated circuits
divided by 5 — one spawned (not awaited) task per 5th originated circuit. -/
theorem scheduler_gating_and_analysis_period :
    (∀ (count : Nat) (b : Bool),
        SchedAction.originate ∈ (schedulerTick count b).2 ↔ b = true)
    ∧ (∀ (count : Nat) (b : Bool),
        (schedulerTick count b).2.count SchedAction.spawnCorrelation
          = if b = true ∧ (count + 1) % 5 = 0 then 1 else 0)
    ∧ (∀ ticks : List Bool,
        (runScheduler 0 ticks).count SchedAction.originate = ticks.count true)
    ∧ (∀ ticks : List Bool,
        (runScheduler 0 ticks).count SchedAction.spawnCorrelation
          = ticks.count true / 5) := by
  refine ⟨?_, ?_, fun ticks => runScheduler_count_originate 0 ticks, fun ticks => ?_⟩
  · intro count b
    cases b with
    | false => simp [schedulerTick]
    | true =>
      by_cases h : (count + 1) % 5 = 0 <;> simp [schedulerTick, h]
  · intro count b
    cases b with
    | false => simp [schedulerTick]
    | true =>
      by_cases h : (count + 1) % 5 = 0 <;> simp [schedulerTick, h, List.count_cons]
  · have := runScheduler_count_spawn 0 ticks
    simpa using this

/-- C10: disconnecting a stale connection (one that has already been replaced
by a newer registration for the same role) leaves the registration map
unchanged: the handler deletes the role's entry only when the map still
points at the very connection that closed. -/
theorem stale_disconnect_preserves_newer (m : AgentsMap) (role : String)
    (wsOld wsNew : Ws) (hcur : dictGet m role = some wsNew) (hne : wsNew ≠ wsOld) :
    applyAgentEvent m (AgentEvent.disconnect role wsOld) = m
    ∧ dictGet (applyAgentEvent m (AgentEvent.disconnect role wsOld)) role = some wsNew := by
  constructor <;> simp [applyAgentEvent, hcur, hne]

/-- C10 witness: with the newer connection 2 registered for `guard`,
disconnecting the stale connection 1 keeps `guard → 2` in the map. -/
theorem stale_disconnect_preserves_newer_witness :
    applyAgentEvent [("guard", 2)] (AgentEvent.disconnect "guard" 1) = [("guard", 2)]
    ∧ dictGet (applyAgentEvent [("guard", 2)] (AgentEvent.disconnect "guard" 1)) "guard"
        = some 2 :=
  stale_disconnect_preserves_newer [("guard", 2)] "guard" 1 2 (by decide) (by decide)

end RelayCircuit
